import Mathlib

/-!
# Verification of the SQL_Agent query pipeline (src/index.js)

A shallow embedding of the chart-oriented post-processing pipeline of the
SQL_Agent backend: the chart-augmentation rewriter
(`modifySqlQueryForCharting`), the BigInt normalizer
(`convertBigIntToString`), the chart data transformer
(`transformDataForChart`), the chart decision (`containsChartKeyword` /
`shouldGenerateChart`) and the `/api/query` request handler.

JavaScript strings are modelled as `List Char`.  The three regular
expressions used by the rewriter are hand-compiled to scanning functions
with JavaScript backtracking semantics (leftmost match, greedy `\s+`,
lazy `(.*?)`, `.` not matching line terminators).  `toLowerCase` /
`toUpperCase` are modelled on the ASCII range (every string the program
manipulates in the claims is ASCII).
-/

namespace SQLAgent

/-! ## JavaScript character classes and elementary string operations -/

/-- JavaScript `\s` (WhiteSpace and LineTerminator code points). -/
def isJsWs (c : Char) : Bool :=
  let n := c.toNat
  n = 9 || n = 10 || n = 11 || n = 12 || n = 13 || n = 32 ||
  n = 160 || n = 0x1680 || (0x2000 ≤ n && n ≤ 0x200A) ||
  n = 0x2028 || n = 0x2029 || n = 0x202F || n = 0x205F ||
  n = 0x3000 || n = 0xFEFF

/-- Characters matched by `.` in a JavaScript regex without the `s` flag:
everything except the four line terminators. -/
def isDotChar (c : Char) : Bool :=
  let n := c.toNat
  !(n = 10 || n = 13 || n = 0x2028 || n = 0x2029)

/-- `String.prototype.toLowerCase`, restricted to ASCII. -/
def lowerChar (c : Char) : Char :=
  if 65 ≤ c.toNat && c.toNat ≤ 90 then Char.ofNat (c.toNat + 32) else c

def jsToLower (s : List Char) : List Char := s.map lowerChar

/-- `String.prototype.toUpperCase`, restricted to ASCII. -/
def upperChar (c : Char) : Char :=
  if 97 ≤ c.toNat && c.toNat ≤ 122 then Char.ofNat (c.toNat - 32) else c

def jsToUpper (s : List Char) : List Char := s.map upperChar

/-- `String.prototype.trim` (strips `\s` from both ends). -/
def jsTrim (s : List Char) : List Char :=
  ((s.dropWhile isJsWs).reverse.dropWhile isJsWs).reverse

/-- `String.prototype.includes` with a literal pattern. -/
def containsSub : List Char → List Char → Bool
  | [], pat => pat.isPrefixOf []
  | c :: r, pat => pat.isPrefixOf (c :: r) || containsSub r pat

/-- Index of the first occurrence of a literal pattern
(`String.prototype.indexOf`). -/
def subIndex : List Char → List Char → Option Nat
  | [], pat => if pat.isPrefixOf [] then some 0 else none
  | c :: r, pat =>
    if pat.isPrefixOf (c :: r) then some 0
    else (subIndex r pat).map (· + 1)

/-- The backquote character (used by the `$`-substitution patterns of
`String.prototype.replace`). -/
def bqChar : Char := Char.ofNat 96

/-- The single-quote character. -/
def sqChar : Char := Char.ofNat 39

/-- `GetSubstitution` for a string (non-regex) pattern: the replacement
string has `$$`, `$&` (the matched text), `` $` `` (text before the match)
and `$'` (text after the match) expanded; any other `$` is literal. -/
def substRepl (m b a : List Char) : List Char → List Char
  | [] => []
  | [c] => [c]
  | c :: d :: rest =>
    if c = '$' && d = '$' then '$' :: substRepl m b a rest
    else if c = '$' && d = '&' then m ++ substRepl m b a rest
    else if c = '$' && d = bqChar then b ++ substRepl m b a rest
    else if c = '$' && d = sqChar then a ++ substRepl m b a rest
    else c :: substRepl m b a (d :: rest)

/-- `String.prototype.replace(pat, repl)` with a string pattern: replaces
the first occurrence only, expanding `$`-patterns in the replacement. -/
def jsReplace (s pat repl : List Char) : List Char :=
  match subIndex s pat with
  | none => s
  | some i =>
    s.take i ++ substRepl pat (s.take i) (s.drop (i + pat.length)) repl ++
      s.drop (i + pat.length)

/-- `String.prototype.replace(/pat/g, '')` for a literal pattern: removes
every (left-to-right, non-overlapping) occurrence. -/
def removeAll (pat : List Char) : List Char → List Char
  | [] => []
  | c :: r =>
    if h : pat.isPrefixOf (c :: r) ∧ pat ≠ [] then
      removeAll pat ((c :: r).drop pat.length)
    else c :: removeAll pat r
termination_by s => s.length
decreasing_by
  · have hp : 0 < pat.length := List.length_pos_of_ne_nil h.2
    simp only [List.length_drop, List.length_cons]
    omega
  · simp only [List.length_cons]; omega

/-! ## The three regular expressions of `modifySqlQueryForCharting`

`/order by\s+(.*?)(asc|desc|$)/`, `/(sum|count|avg|min|max)\s*\(/` and
`/select\s+(.*?)\s+from/`, compiled to scanners.

For `/order by\s+(.*?)(asc|desc|$)/` the greedy `\s+` may in principle
backtrack, but a shorter whitespace run only prepends whitespace
characters to the region scanned by the lazy group, and `asc`, `desc`
cannot start at a whitespace character, so backtracking the run never
turns a failure into a success: it suffices to try the maximal run.
For `/select\s+(.*?)\s+from/` the same argument applies except in one
case: when `from` directly follows the maximal whitespace run, giving
back one whitespace character lets the group match empty; this case is
handled explicitly. -/

def obKey : List Char := "order by".toList

def selKey : List Char := "select".toList

def fromKey : List Char := "from".toList

def ascKey : List Char := "asc".toList

def descKey : List Char := "desc".toList

/-- Lazy expansion of `(.*?)` followed by `(asc|desc|$)`: stop at the
first position where `asc` or `desc` starts (or at the end of input);
fail if a non-`.` character (line terminator) is reached first. -/
def lazyToAscDesc : List Char → List Char → Option (List Char)
  | t, acc =>
    if ascKey.isPrefixOf t || descKey.isPrefixOf t then some acc.reverse
    else
      match t with
      | [] => some acc.reverse
      | c :: rest => if isDotChar c then lazyToAscDesc rest (c :: acc) else none

/-- Continuation of regex `/order by\s+(.*?)(asc|desc|$)/` after the
literal `order by`: `\s+` (maximal run, see above) then the lazy group. -/
def tryAfterOrderBy (t : List Char) : Option (List Char) :=
  let ws := t.takeWhile isJsWs
  if ws.isEmpty then none else lazyToAscDesc (t.dropWhile isJsWs) []

/-- `lowerQuery.match(/order by\s+(.*?)(asc|desc|$)/)`: the first capture
group of the leftmost match, or `none` when the regex does not match. -/
def matchOrderBy : List Char → Option (List Char)
  | [] => none
  | c :: rest =>
    if obKey.isPrefixOf (c :: rest) then
      match tryAfterOrderBy (List.drop 8 (c :: rest)) with
      | some g => some g
      | none => matchOrderBy rest
    else matchOrderBy rest

/-- One aggregate-name alternative of `/(sum|count|avg|min|max)\s*\(/` at
the current position: on success, the whole match and the group. -/
def tryAggName (name t : List Char) : Option (List Char × List Char) :=
  if name.isPrefixOf t then
    let rest := t.drop name.length
    let ws := rest.takeWhile isJsWs
    match rest.dropWhile isJsWs with
    | '(' :: _ => some (name ++ ws ++ ['('], name)
    | _ => none
  else none

def aggNames : List (List Char) :=
  ["sum".toList, "count".toList, "avg".toList, "min".toList, "max".toList]

def tryAggAt (t : List Char) : Option (List Char × List Char) :=
  (aggNames.map (fun n => tryAggName n t)).foldr (fun o acc => o.orElse fun _ => acc) none

/-- `orderByClause.match(/(sum|count|avg|min|max)\s*\(/)`: the whole
match (`match[0]`) and the captured function name (`match[1]`) of the
leftmost match. -/
def matchAgg : List Char → Option (List Char × List Char)
  | [] => none
  | c :: rest =>
    match tryAggAt (c :: rest) with
    | some p => some p
    | none => matchAgg rest

/-- `\s+from` test at the current position (only the maximal whitespace
run can be followed by the non-whitespace `f`). -/
def wsFromAt (t : List Char) : Bool :=
  !(t.takeWhile isJsWs).isEmpty && fromKey.isPrefixOf (t.dropWhile isJsWs)

/-- Lazy expansion of `(.*?)` followed by `\s+from`. -/
def lazyToWsFrom : List Char → List Char → Option (List Char)
  | t, acc =>
    if wsFromAt t then some acc.reverse
    else
      match t with
      | [] => none
      | c :: rest => if isDotChar c then lazyToWsFrom rest (c :: acc) else none

/-- Continuation of `/select\s+(.*?)\s+from/` after the literal `select`:
maximal `\s+` run, lazy group; if that fails and `from` directly follows a
run of length at least two, backtracking the run yields an empty group. -/
def tryAfterSelect (t : List Char) : Option (List Char) :=
  let w := (t.takeWhile isJsWs).length
  if w = 0 then none
  else
    match lazyToWsFrom (t.drop w) [] with
    | some g => some g
    | none => if 2 ≤ w && fromKey.isPrefixOf (t.drop w) then some [] else none

/-- `lowerQuery.match(/select\s+(.*?)\s+from/)`: the first capture group
of the leftmost match. -/
def matchSelect : List Char → Option (List Char)
  | [] => none
  | c :: rest =>
    if selKey.isPrefixOf (c :: rest) then
      match tryAfterSelect (List.drop 6 (c :: rest)) with
      | some g => some g
      | none => matchSelect rest
    else matchSelect rest

/-! ## The chart-augmentation rewriter (src/index.js lines 145-170) -/

/-- `modifySqlQueryForCharting(query)`. -/
def modifySqlQueryForCharting (query : List Char) : List Char :=
  let lowerQuery := jsToLower query
  match matchOrderBy lowerQuery with
  | some g =>
    if g ≠ [] then
      let orderByClause := jsTrim g
      match matchAgg orderByClause with
      | some (aggregateFunction, aggName) =>
        match matchSelect lowerQuery with
        | some selectClause =>
          if selectClause ≠ [] then
            if !containsSub selectClause aggregateFunction then
              let aliasName := aggName ++ "_value".toList
              let modifiedSelect :=
                selectClause ++ ", ".toList ++ aggregateFunction ++
                  " AS ".toList ++ aliasName
              jsReplace query selectClause modifiedSelect
            else query
          else query
        | none => query
      | none => query
    else query
  | none => query

/-! ## JavaScript values

Result rows are JSON-like JavaScript values.  `num` carries the payload of
a `number` (no arithmetic is ever performed on it by the code under
study, only `typeof` inspection and copying, so an integer payload
suffices for every claim); `bigintV` a `bigint`; `undefinedV` is `undefined`.
Objects are ordered key/value lists in property-enumeration order. -/

inductive JsValue where
  | str (s : List Char)
  | num (n : Int)
  | bigintV (n : Int)
  | boolV (b : Bool)
  | nullV
  | undefinedV
  | arr (elems : List JsValue)
  | obj (entries : List (List Char × JsValue))
  deriving Repr

def isStringV : JsValue → Bool
  | .str _ => true
  | _ => false

def isNumberV : JsValue → Bool
  | .num _ => true
  | _ => false

def isBigintV : JsValue → Bool
  | .bigintV _ => true
  | _ => false

def isArrayV : JsValue → Bool
  | .arr _ => true
  | _ => false

/-- Decimal digits of a natural number, with explicit fuel so that the
definition is structurally recursive (the fuel `n` always suffices: a
number has at most `n` digits). -/
def natToDecGo : Nat → Nat → List Char → List Char
  | 0, n, acc => Char.ofNat (48 + n % 10) :: acc
  | fuel + 1, n, acc =>
    if n < 10 then Char.ofNat (48 + n) :: acc
    else natToDecGo fuel (n / 10) (Char.ofNat (48 + n % 10) :: acc)

/-- Decimal digits of a natural number. -/
def natToDec (n : Nat) : List Char := natToDecGo n n []

/-- `BigInt.prototype.toString` in base 10. -/
def intToDec (n : Int) : List Char :=
  if n < 0 then '-' :: natToDec (-n).toNat else natToDec n.toNat

/-! ## The BigInt normalizer (src/index.js lines 101-122)

`convertBigIntToString` returns non-objects unchanged (note that a
`bigint` is not an `object`, so a top-level or array-element `bigint`
passes through untouched), maps itself over arrays, and walks the own
enumerable properties of objects, converting `bigint` values with
`toString` and recursing on the rest. -/

mutual

def convertBigIntToString : JsValue → JsValue
  | .arr l => .arr (convertBigIntList l)
  | .obj l => .obj (convertBigIntEntries l)
  | v => v

def convertBigIntList : List JsValue → List JsValue
  | [] => []
  | v :: r => convertBigIntToString v :: convertBigIntList r

def convertBigIntEntries :
    List (List Char × JsValue) → List (List Char × JsValue)
  | [] => []
  | (k, .bigintV n) :: r => (k, .str (intToDec n)) :: convertBigIntEntries r
  | (k, v) :: r => (k, convertBigIntToString v) :: convertBigIntEntries r

end

mutual

/-- Does a `bigint` occur anywhere (array elements, object values, or the
value itself)?  Used to state what normalization does and does not
eliminate. -/
def hasBigint : JsValue → Bool
  | .bigintV _ => true
  | .arr l => hasBigintList l
  | .obj l => hasBigintEntries l
  | _ => false

def hasBigintList : List JsValue → Bool
  | [] => false
  | v :: r => hasBigint v || hasBigintList r

def hasBigintEntries : List (List Char × JsValue) → Bool
  | [] => false
  | (_, v) :: r => hasBigint v || hasBigintEntries r

end

mutual

/-- Does a `bigint` occur as the value of some object property, at any
depth?  (`convertBigIntToString` eliminates exactly these.) -/
def hasObjBigint : JsValue → Bool
  | .arr l => hasObjBigintList l
  | .obj l => hasObjBigintEntries l
  | _ => false

def hasObjBigintList : List JsValue → Bool
  | [] => false
  | v :: r => hasObjBigint v || hasObjBigintList r

def hasObjBigintEntries : List (List Char × JsValue) → Bool
  | [] => false
  | (_, v) :: r => isBigintV v || hasObjBigint v || hasObjBigintEntries r

end

/-! ## Property access

`Object.keys` / property reads, as used by `transformDataForChart`.
`Object.keys(v)` (via `ToObject`) throws a `TypeError` on `null` and
`undefined`; on an array it yields the index strings, on a string the
character-position strings, on other primitives the empty list. -/

/-- Own enumerable string-keyed entries of a value, or a thrown
`TypeError` for `null`/`undefined`. -/
def jsEntries : JsValue → Except Unit (List (List Char × JsValue))
  | .obj l => .ok l
  | .arr l => .ok (l.enum.map fun p => (natToDec p.1, p.2))
  | .str s => .ok (s.enum.map fun p => (natToDec p.1, .str [p.2]))
  | .nullV => .error ()
  | .undefinedV => .error ()
  | _ => .ok []

/-- Property read `v[k]` for a non-`null`, non-`undefined` receiver:
the entry value, or `undefined` when the key is absent. -/
def jsIndexT (v : JsValue) (k : List Char) : JsValue :=
  match jsEntries v with
  | .ok l =>
    match l.find? (fun p => p.1 == k) with
    | some p => p.2
    | none => .undefinedV
  | .error _ => .undefinedV

/-- Property read `v[k]`; throws on `null`/`undefined` receivers. -/
def jsGetE (v : JsValue) (k : List Char) : Except Unit JsValue :=
  match v with
  | .nullV => .error ()
  | .undefinedV => .error ()
  | _ => .ok (jsIndexT v k)

/-! ## The chart data transformer (src/index.js lines 222-268) -/

structure ChartDataset where
  label : List Char
  data : List JsValue
  backgroundColor : List Char
  borderColor : List Char
  borderWidth : Int
  deriving Repr

structure ChartSeries where
  typ : List Char
  labels : List JsValue
  datasets : List ChartDataset
  deriving Repr

def bgColor : List Char := "rgba(75, 192, 192, 0.6)".toList

def bdColor : List Char := "rgba(75, 192, 192, 1)".toList

/-- The classification loop over `columnNames`: first string-valued key
becomes the label column, first number-valued key the value column, with
an early exit once both are found. -/
def scanColumns (firstRow : JsValue) :
    List (List Char) → Option (List Char) → Option (List Char) →
      Option (List Char) × Option (List Char)
  | [], l, v => (l, v)
  | k :: rest, l, v =>
    let sampleValue := jsIndexT firstRow k
    let l2 := if isStringV sampleValue && l.isNone then some k else l
    let v2 :=
      if !(isStringV sampleValue && l.isNone) &&
          (isNumberV sampleValue && v.isNone) then some k else v
    if l2.isSome && v2.isSome then (l2, v2)
    else scanColumns firstRow rest l2 v2

/-- `transformDataForChart(data)`: `.error` models a thrown exception
(caught by the caller), `.ok none` the `null` result. -/
def transformDataForChart (data : JsValue) : Except Unit (Option ChartSeries) :=
  match data with
  | .arr rows =>
    match rows with
    | [] => .ok none
    | firstRow :: _ => do
      let ents ← jsEntries firstRow
      let columnNames := ents.map Prod.fst
      let scanned := scanColumns firstRow columnNames none none
      let labelColumn :=
        match scanned.1 with
        | some x => some x
        | none => columnNames.head?
      let valueColumn :=
        match scanned.2 with
        | some x => some x
        | none => columnNames.get? 1
      match labelColumn, valueColumn with
      | some lCol, some vCol => do
        let labels ← rows.mapM (fun r => jsGetE r lCol)
        let dataValues ← rows.mapM (fun r => jsGetE r vCol)
        let datasetLabel := if vCol = [] then "Value".toList else vCol
        pure (some
          { typ := "bar".toList
            labels := labels
            datasets := [{ label := datasetLabel, data := dataValues,
                           backgroundColor := bgColor, borderColor := bdColor,
                           borderWidth := 1 }] })
      | _, _ => pure none
  | _ => .ok none

/-! ## The chart decision (src/index.js lines 208-219 and 274-288) -/

def chartKeywords : List (List Char) :=
  ["chart".toList, "plot".toList, "graph".toList, "visualize".toList]

/-- `chartKeywords.some(keyword => userQuery.toLowerCase().includes(keyword))`. -/
def containsChartKeyword (userQuery : List Char) : Bool :=
  chartKeywords.any (fun kw => containsSub (jsToLower userQuery) kw)

/-- `shouldGenerateChart`: the language-model call is abstracted as its
outcome (`.ok text` or `.error`); failures are caught internally and give
`false`. -/
def shouldGenerateChart (lmResp : Except Unit (List Char)) : Bool :=
  match lmResp with
  | .ok text => jsToUpper (jsTrim text) == "YES".toList
  | .error _ => false

/-- The chart decision of the request handler (lines 277-288): the
keyword check first; only the fallthrough branch consults the model.
Returns (decision, model was consulted). -/
def chartDecision (userQuery : List Char) (lmResp : Except Unit (List Char)) :
    Bool × Bool :=
  if containsChartKeyword userQuery then (true, false)
  else (shouldGenerateChart lmResp, true)

/-! ## The `/api/query` handler (src/index.js lines 124-315)

External collaborators (catalog query, the two language-model calls for
SQL generation and summarization, the yes/no chart call, and SQL
execution) are modelled by their outcomes, recorded in `PipelineEnv`;
each is a single attempt.  Fatal failures carry the thrown error's
`message` (`error.message || 'Failed to process query'` is surfaced). -/

structure PipelineEnv where
  /-- Outcome of `getTableAndColumnNames()` (the catalog query). -/
  schemaRes : Except (List Char) Unit
  /-- Outcome of the raw language-model call for SQL generation; the
  handler wraps failures in `Error('Failed to generate SQL query.')`. -/
  genSqlLm : Except Unit (List Char)
  /-- Outcome of `prisma.$queryRawUnsafe(sqlQuery)`. -/
  execRes : Except (List Char) JsValue
  /-- Outcome of the summarization model call (`explanationText`). -/
  summaryLm : Except (List Char) (List Char)
  /-- Outcome of the yes/no chart model call. -/
  chartLm : Except Unit (List Char)

structure ResponsePayload where
  query : List Char
  result : JsValue
  summary : List Char
  chart : Option ChartSeries

inductive ApiResponse where
  | badRequest (errMsg : List Char)
  | serverError (errMsg : List Char)
  | ok (payload : ResponsePayload)

/-- `error.message || 'Failed to process query'`. -/
def errOrFallback (msg : List Char) : List Char :=
  if msg = [] then "Failed to process query".toList else msg

def genSqlFailMsg : List Char := "Failed to generate SQL query.".toList

/-- Post-processing of the raw SQL-generation response
(src/index.js line 92): strip code fences, then trim. -/
def cleanSqlResponse (text : List Char) : List Char :=
  jsTrim (removeAll "```".toList (removeAll "```sql".toList text))

/-- The `POST /api/query` handler body.  `body` is the request's `query`
field (`none` when absent); `!userQuery` rejects both a missing and an
empty string. -/
def apiQueryHandler (body : Option (List Char)) (env : PipelineEnv) :
    ApiResponse :=
  let userQuery := body.getD []
  if userQuery = [] then .badRequest "Query is required".toList
  else
    match env.schemaRes with
    | .error m => .serverError (errOrFallback m)
    | .ok _ =>
      match env.genSqlLm with
      | .error _ => .serverError (errOrFallback genSqlFailMsg)
      | .ok rawSql =>
        let sqlQuery := modifySqlQueryForCharting (cleanSqlResponse rawSql)
        match env.execRes with
        | .error m => .serverError (errOrFallback m)
        | .ok rawResult =>
          let result := convertBigIntToString rawResult
          match env.summaryLm with
          | .error m => .serverError (errOrFallback m)
          | .ok explanationText =>
            let generateChart := (chartDecision userQuery env.chartLm).1
            let chartData :=
              if generateChart then
                match transformDataForChart result with
                | .ok c => c
                | .error _ => none
              else none
            .ok { query := sqlQuery, result := result,
                  summary := jsTrim explanationText, chart := chartData }

/-! ## Spec-side predicates for claim C3

The specification's description of the rewriter's guard: "the ordering
expression extracted up to (but excluding) an `ASC`/`DESC` keyword or end
of string" is the trimmed first capture group of the `ORDER BY` scan; the
claim requires the aggregate name to be *immediately* followed by `(`,
with no whitespace allowed. -/

/-- The ordering expression of a statement, as the rewriter extracts it. -/
def orderingExprOf (query : List Char) : Option (List Char) :=
  (matchOrderBy (jsToLower query)).map jsTrim

/-- Claim-side aggregate test: an aggregate-function name immediately
followed by `(` occurs in the expression. -/
def aggImmediatelyIn (e : List Char) : Bool :=
  (aggNames.map (fun n => n ++ ['('])).any (fun p => containsSub e p)

/-- Spec-side "there is no ORDER BY clause (case-insensitively)". -/
def noOrderByClause (query : List Char) : Bool :=
  !containsSub (jsToLower query) obKey

/-! ## Auxiliary predicates used in theorem statements -/

/-- No position inside `pre` starts an occurrence of `pat` in
`pre ++ post` (occurrences may span the junction). -/
def noStartIn (pat : List Char) : List Char → List Char → Bool
  | [], _ => true
  | c :: p, post => !pat.isPrefixOf (c :: (p ++ post)) && noStartIn pat p post

/-- No dollar sign, so `String.replace` inserts the text literally. -/
def noDollar (s : List Char) : Bool := s.all (fun c => !(c = '$'))

/-! ## String lemmas -/

theorem substRepl_no_dollar (m b a : List Char) :
    ∀ repl : List Char, noDollar repl = true → substRepl m b a repl = repl
  | [], _ => rfl
  | [_], _ => rfl
  | c :: d :: rest, h => by
    have hc : c ≠ '$' := by
      simp only [noDollar, List.all_cons, Bool.and_eq_true, Bool.not_eq_true',
        decide_eq_false_iff_not] at h
      exact h.1
    have htail : noDollar (d :: rest) = true := by
      simp only [noDollar, List.all_cons, Bool.and_eq_true] at h ⊢
      exact ⟨h.2.1, h.2.2⟩
    simp only [substRepl, hc, decide_eq_true_eq, if_neg, Bool.and_eq_true,
      decide_eq_false_iff_not, false_and, not_false_eq_true]
    simp only [substRepl_no_dollar m b a (d :: rest) htail]

theorem jsReplace_at (s pat repl : List Char) (i : Nat)
    (h : subIndex s pat = some i) (hd : noDollar repl = true) :
    jsReplace s pat repl = s.take i ++ repl ++ s.drop (i + pat.length) := by
  simp only [jsReplace, h]
  rw [substRepl_no_dollar _ _ _ repl hd]

theorem isPrefixOf_self_append (pat y : List Char) :
    pat.isPrefixOf (pat ++ y) = true :=
  List.isPrefixOf_iff_prefix.mpr (List.prefix_append _ _)

theorem containsSub_nil_pat : ∀ l : List Char, containsSub l [] = true
  | [] => rfl
  | _ :: r => by
    simp only [containsSub, Bool.or_eq_true]
    exact Or.inr (containsSub_nil_pat r)

theorem containsSub_append_middle (x pat y : List Char) :
    containsSub (x ++ (pat ++ y)) pat = true := by
  induction x with
  | nil =>
    cases pat with
    | nil => simpa using containsSub_nil_pat y
    | cons c pr =>
      simp only [List.nil_append, containsSub, Bool.or_eq_true]
      exact Or.inl (isPrefixOf_self_append _ _)
  | cons a x ih =>
    simp only [List.cons_append, containsSub, Bool.or_eq_true]
    exact Or.inr ih

/-! ## Scanner lemmas -/

theorem matchOrderBy_append (pre post : List Char)
    (h : noStartIn obKey pre post = true) :
    matchOrderBy (pre ++ post) = matchOrderBy post := by
  induction pre with
  | nil => rfl
  | cons c p ih =>
    simp only [noStartIn, Bool.and_eq_true, Bool.not_eq_true'] at h
    have step : matchOrderBy ((c :: p) ++ post) = matchOrderBy (p ++ post) := by
      simp only [List.cons_append, matchOrderBy, List.append_eq, h.1,
        Bool.false_eq_true, if_false]
    rw [step, ih h.2]

theorem matchOrderBy_some_sub {s g : List Char} (h : matchOrderBy s = some g) :
    containsSub s obKey = true := by
  induction s with
  | nil => simp [matchOrderBy] at h
  | cons c r ih =>
    simp only [containsSub, Bool.or_eq_true]
    cases hpre : obKey.isPrefixOf (c :: r) with
    | true => exact Or.inl rfl
    | false =>
      simp only [matchOrderBy, hpre, Bool.false_eq_true, if_false] at h
      exact Or.inr (ih h)

/-! ## Claim C1 -/

/-- Claim C1: on `SELECT name FROM customers ORDER BY SUM(amount) DESC`
the rewriter is claimed to produce a SELECT list containing
`SUM(amount) AS sum_value`.  The code instead appends only the matched
fragment `aggregateMatch[0]` (the function name plus the opening
parenthesis), yielding `SELECT name, sum( AS sum_value FROM …`, which
does not contain the claimed text even case-insensitively; the second
half of the claim (an already-projected aggregate passes through
unchanged) does hold.  This theorem records the actual behaviour at the
claim's two inputs. -/
theorem c1_rewriter_appends_fragment :
    modifySqlQueryForCharting
        "SELECT name FROM customers ORDER BY SUM(amount) DESC".toList =
      "SELECT name, sum( AS sum_value FROM customers ORDER BY SUM(amount) DESC".toList ∧
    containsSub
        (jsToLower (modifySqlQueryForCharting
          "SELECT name FROM customers ORDER BY SUM(amount) DESC".toList))
        (jsToLower "SUM(amount) AS sum_value".toList) = false ∧
    modifySqlQueryForCharting
        "SELECT name, SUM(amount) AS total FROM customers ORDER BY SUM(amount) DESC".toList =
      "SELECT name, SUM(amount) AS total FROM customers ORDER BY SUM(amount) DESC".toList :=
  ⟨by decide, by decide, by decide⟩

/-! ## Claim C3 -/

/-- Claim C3 is refuted by `select a from t order by sum (b)`: its
ordering expression `sum (b)` contains no aggregate name *immediately*
followed by `(` (the claim's condition), yet the statement is modified,
because the code's pattern allows whitespace between the name and the
parenthesis (`\s*`). -/
theorem c3_counterexample :
    orderingExprOf "select a from t order by sum (b)".toList =
      some "sum (b)".toList ∧
    aggImmediatelyIn "sum (b)".toList = false ∧
    modifySqlQueryForCharting "select a from t order by sum (b)".toList ≠
      "select a from t order by sum (b)".toList :=
  ⟨by decide, by decide, by decide⟩

/-- Claim C3 (amended): the statement passes through unchanged whenever,
case-insensitively, there is no `ORDER BY` clause, or the extracted
ordering expression contains no aggregate-function name followed by
optional whitespace and `(` (the code's `\s*\(`, rather than the claim's
"immediately followed by `('`"), or the SELECT-to-FROM projection list
already contains the matched aggregate substring. -/
theorem c3_unchanged_amended (q : List Char)
    (h : noOrderByClause q = true ∨
      (∀ e, orderingExprOf q = some e → matchAgg e = none) ∨
      (∃ e af an sc, orderingExprOf q = some e ∧ matchAgg e = some (af, an) ∧
        matchSelect (jsToLower q) = some sc ∧ containsSub sc af = true)) :
    modifySqlQueryForCharting q = q := by
  rcases h with hD1 | hD2 | hD3
  · cases hOB : matchOrderBy (jsToLower q) with
    | none => simp [modifySqlQueryForCharting, hOB]
    | some g =>
      exfalso
      have hsub := matchOrderBy_some_sub hOB
      simp only [noOrderByClause, hsub, Bool.not_true] at hD1
      exact Bool.false_ne_true hD1
  · cases hOB : matchOrderBy (jsToLower q) with
    | none => simp [modifySqlQueryForCharting, hOB]
    | some g =>
      have he : orderingExprOf q = some (jsTrim g) := by
        simp [orderingExprOf, hOB]
      have hAggN := hD2 (jsTrim g) he
      by_cases hg : g = []
      · simp [modifySqlQueryForCharting, hOB, hg]
      · simp [modifySqlQueryForCharting, hOB, hg, hAggN]
  · obtain ⟨e, af, an, sc, he, hae, hsel, hcont⟩ := hD3
    cases hOB : matchOrderBy (jsToLower q) with
    | none => simp [modifySqlQueryForCharting, hOB]
    | some g =>
      have he' : e = jsTrim g := by
        simp only [orderingExprOf, hOB, Option.map_some'] at he
        exact (Option.some.injEq _ _ ▸ he).symm
      subst he'
      by_cases hg : g = []
      · simp [modifySqlQueryForCharting, hOB, hg]
      · by_cases hsc : sc = []
        · simp [modifySqlQueryForCharting, hOB, hg, hae, hsel, hsc]
        · simp [modifySqlQueryForCharting, hOB, hg, hae, hsel, hsc, hcont]

/-- Witness for `c3_unchanged_amended` at a statement with no `ORDER BY`
clause. -/
theorem c3_unchanged_witness :
    noOrderByClause "select x from t".toList = true ∧
    modifySqlQueryForCharting "select x from t".toList =
      "select x from t".toList :=
  ⟨by decide, c3_unchanged_amended _ (Or.inl (by decide))⟩

/-! ## Claim C2 -/

theorem jsToLower_append (a b : List Char) :
    jsToLower (a ++ b) = jsToLower a ++ jsToLower b :=
  List.map_append _ _ _

theorem noDollar_append (a b : List Char) :
    noDollar (a ++ b) = (noDollar a && noDollar b) := by
  simp [noDollar, List.all_append]

/-- The rewriter's modification step, in terms of the intermediate scans. -/
theorem modify_eq_of (q C G af an : List Char)
    (hob : matchOrderBy (jsToLower q) = some G) (hg : G ≠ [])
    (hagg : matchAgg (jsTrim G) = some (af, an))
    (hsel : matchSelect (jsToLower q) = some C) (hc : C ≠ [])
    (hnc : containsSub C af = false) :
    modifySqlQueryForCharting q =
      jsReplace q C
        (C ++ ", ".toList ++ af ++ " AS ".toList ++ (an ++ "_value".toList)) := by
  simp [modifySqlQueryForCharting, hob, hg, hagg, hsel, hc, hnc]

/-- The rewriter's already-projected branch. -/
theorem modify_unchanged_of_contains (q sc G af an : List Char)
    (hob : matchOrderBy (jsToLower q) = some G) (hg : G ≠ [])
    (hagg : matchAgg (jsTrim G) = some (af, an))
    (hsel : matchSelect (jsToLower q) = some sc)
    (hcont : containsSub sc af = true) :
    modifySqlQueryForCharting q = q := by
  by_cases hsc : sc = []
  · simp [modifySqlQueryForCharting, hob, hg, hagg, hsel, hsc]
  · simp [modifySqlQueryForCharting, hob, hg, hagg, hsel, hsc, hcont]

/-- Claim C2 is refuted by `SELECT A FROM t ORDER BY SUM(b) DESC a`: the
(lower-cased) select clause `a` is replaced at its first occurrence in
the original string, which here is the trailing `a`, so each pass
appends another `, sum( AS sum_value` there. -/
theorem c2_counterexample :
    modifySqlQueryForCharting
        (modifySqlQueryForCharting "SELECT A FROM t ORDER BY SUM(b) DESC a".toList) ≠
      modifySqlQueryForCharting "SELECT A FROM t ORDER BY SUM(b) DESC a".toList :=
  by decide

/-- Claim C2 (amended): the rewriter is idempotent on a statement
`select <C> from <T>` provided the rewrite behaves canonically: the
select scan extracts exactly the lowercase projection `C`, whose first
occurrence in the statement is the projection itself (so the textual
replacement lands inside the SELECT list), the replaced text contains no
`$`, and the `ORDER BY` scan finds its clause inside `T` both before and
after the insertion, whose extended SELECT list the second select scan
then extracts.  On such statements the second pass finds the appended
aggregate fragment in the SELECT list and leaves the output unchanged.
(In general the rewriter is not idempotent; see the counterexample.) -/
theorem c2_idempotent_amended (C T G af an : List Char)
    (hce : C ≠ [])
    (hlow : jsToLower C = C)
    (hsel : matchSelect (jsToLower ("select ".toList ++ C ++ " from ".toList ++ T)) =
      some C)
    (hob : matchOrderBy (jsToLower ("select ".toList ++ C ++ " from ".toList ++ T)) =
      some G)
    (hgne : G ≠ [])
    (hagg : matchAgg (jsTrim G) = some (af, an))
    (haf : jsToLower af = af)
    (han : jsToLower an = an)
    (hnc : containsSub C af = false)
    (hidx : subIndex ("select ".toList ++ C ++ " from ".toList ++ T) C = some 7)
    (hnd : noDollar (C ++ af ++ an) = true)
    (hpre1 : noStartIn obKey ("select ".toList ++ C ++ " from ".toList)
      (jsToLower T) = true)
    (hpre2 : noStartIn obKey
      ("select ".toList ++ C ++ ", ".toList ++ af ++ " as ".toList ++ an ++
        "_value".toList ++ " from ".toList) (jsToLower T) = true)
    (hsel2 : matchSelect (jsToLower
      ("select ".toList ++ C ++ ", ".toList ++ af ++ " AS ".toList ++ an ++
        "_value".toList ++ " from ".toList ++ T)) =
      some (C ++ ", ".toList ++ af ++ " as ".toList ++ an ++ "_value".toList)) :
    modifySqlQueryForCharting
        (modifySqlQueryForCharting ("select ".toList ++ C ++ " from ".toList ++ T)) =
      modifySqlQueryForCharting ("select ".toList ++ C ++ " from ".toList ++ T) := by
  have hndC : noDollar C = true ∧ noDollar af = true ∧ noDollar an = true := by
    simp only [noDollar_append, Bool.and_eq_true] at hnd
    exact ⟨hnd.1.1, hnd.1.2, hnd.2⟩
  have hndmod : noDollar
      (C ++ ", ".toList ++ af ++ " AS ".toList ++ (an ++ "_value".toList)) = true := by
    simp only [noDollar_append, Bool.and_eq_true]
    refine ⟨⟨⟨⟨hndC.1, by decide⟩, hndC.2.1⟩, by decide⟩, hndC.2.2, by decide⟩
  have htake : ("select ".toList ++ C ++ " from ".toList ++ T).take 7 =
      "select ".toList := by
    have h7 : (7 : Nat) = ("select ".toList).length := rfl
    rw [h7]
    simp only [List.append_assoc]
    exact List.take_left _ _
  have hdrop : ("select ".toList ++ C ++ " from ".toList ++ T).drop (7 + C.length) =
      " from ".toList ++ T := by
    have hlen : (7 + C.length : Nat) = ("select ".toList ++ C).length := by
      simp [List.length_append]
      omega
    rw [hlen, List.append_assoc ("select ".toList ++ C) " from ".toList T,
      List.drop_left]
  have hfq : modifySqlQueryForCharting ("select ".toList ++ C ++ " from ".toList ++ T) =
      "select ".toList ++ C ++ ", ".toList ++ af ++ " AS ".toList ++ an ++
        "_value".toList ++ " from ".toList ++ T := by
    rw [modify_eq_of _ C G af an hob hgne hagg hsel hce hnc,
      jsReplace_at _ _ _ 7 hidx hndmod, htake, hdrop]
    simp [List.append_assoc]
  have hlqdec : jsToLower ("select ".toList ++ C ++ " from ".toList ++ T) =
      "select ".toList ++ C ++ " from ".toList ++ jsToLower T := by
    simp only [jsToLower_append, hlow,
      show jsToLower "select ".toList = "select ".toList from by decide,
      show jsToLower " from ".toList = " from ".toList from by decide]
  have hobT : matchOrderBy (jsToLower T) = some G := by
    have hsplit := matchOrderBy_append
      ("select ".toList ++ C ++ " from ".toList) (jsToLower T) hpre1
    rw [hlqdec] at hob
    simp only [List.append_assoc] at hsplit hob
    rw [← hsplit]
    exact hob
  have hlq'dec : jsToLower
      ("select ".toList ++ C ++ ", ".toList ++ af ++ " AS ".toList ++ an ++
        "_value".toList ++ " from ".toList ++ T) =
      "select ".toList ++ C ++ ", ".toList ++ af ++ " as ".toList ++ an ++
        "_value".toList ++ " from ".toList ++ jsToLower T := by
    simp only [jsToLower_append, hlow, haf, han,
      show jsToLower "select ".toList = "select ".toList from by decide,
      show jsToLower ", ".toList = ", ".toList from by decide,
      show jsToLower " AS ".toList = " as ".toList from by decide,
      show jsToLower "_value".toList = "_value".toList from by decide,
      show jsToLower " from ".toList = " from ".toList from by decide]
  have hob' : matchOrderBy (jsToLower
      ("select ".toList ++ C ++ ", ".toList ++ af ++ " AS ".toList ++ an ++
        "_value".toList ++ " from ".toList ++ T)) = some G := by
    rw [hlq'dec]
    have hsplit := matchOrderBy_append
      ("select ".toList ++ C ++ ", ".toList ++ af ++ " as ".toList ++ an ++
        "_value".toList ++ " from ".toList) (jsToLower T) hpre2
    simp only [List.append_assoc] at hsplit ⊢
    rw [hsplit]
    exact hobT
  have hcont2 : containsSub
      (C ++ ", ".toList ++ af ++ " as ".toList ++ an ++ "_value".toList) af = true := by
    have := containsSub_append_middle (C ++ ", ".toList) af
      (" as ".toList ++ an ++ "_value".toList)
    simpa [List.append_assoc] using this
  have hfq' : modifySqlQueryForCharting
      ("select ".toList ++ C ++ ", ".toList ++ af ++ " AS ".toList ++ an ++
        "_value".toList ++ " from ".toList ++ T) =
      "select ".toList ++ C ++ ", ".toList ++ af ++ " AS ".toList ++ an ++
        "_value".toList ++ " from ".toList ++ T :=
    modify_unchanged_of_contains _
      (C ++ ", ".toList ++ af ++ " as ".toList ++ an ++ "_value".toList)
      G af an hob' hgne hagg hsel2 hcont2
  rw [hfq, hfq']

/-- Witness for `c2_idempotent_amended` at the canonical statement
`select name from customers order by sum(amount) desc`. -/
theorem c2_idempotent_witness :
    modifySqlQueryForCharting
        (modifySqlQueryForCharting
          ("select ".toList ++ "name".toList ++ " from ".toList ++
            "customers order by sum(amount) desc".toList)) =
      modifySqlQueryForCharting
        ("select ".toList ++ "name".toList ++ " from ".toList ++
          "customers order by sum(amount) desc".toList) :=
  c2_idempotent_amended "name".toList "customers order by sum(amount) desc".toList
    "sum(amount) ".toList "sum(".toList "sum".toList
    (by decide) (by decide) (by decide) (by decide) (by decide) (by decide)
    (by decide) (by decide) (by decide) (by decide) (by decide) (by decide)
    (by decide) (by decide)

/-! ## Claims C4, C5, C10: the chart data transformer

Spec-side (declarative) column classification, following §4.8 of the
specification: scan the first row's keys in order, the first key with a
textual value is the label column, the first with a numeric value the
value column; fall back to the first and second declared keys. -/

def firstStringKey (row : List (List Char × JsValue)) : Option (List Char) :=
  (row.map Prod.fst).find? (fun k => isStringV (jsIndexT (.obj row) k))

def firstNumberKey (row : List (List Char × JsValue)) : Option (List Char) :=
  (row.map Prod.fst).find? (fun k => isNumberV (jsIndexT (.obj row) k))

def specLabelColumn (row : List (List Char × JsValue)) : Option (List Char) :=
  (firstStringKey row).orElse (fun _ => (row.map Prod.fst).head?)

def specValueColumn (row : List (List Char × JsValue)) : Option (List Char) :=
  (firstNumberKey row).orElse (fun _ => (row.map Prod.fst).get? 1)

/-- Did the transformer return the `null` result (as opposed to a chart
or a thrown exception)? -/
def isNullResult : Except Unit (Option ChartSeries) → Bool
  | .ok none => true
  | _ => false

theorem isNumberV_eq_false_of_string {v : JsValue} (h : isStringV v = true) :
    isNumberV v = false := by
  cases v <;> simp_all [isStringV, isNumberV]

theorem isStringV_eq_false_of_number {v : JsValue} (h : isNumberV v = true) :
    isStringV v = false := by
  cases v <;> simp_all [isStringV, isNumberV]

/-- The classification loop computes the first string-valued and first
number-valued keys (with already-assigned columns kept). -/
theorem scanColumns_spec (fr : JsValue) (ks : List (List Char)) :
    ∀ l v : Option (List Char),
      scanColumns fr ks l v =
        (l.orElse (fun _ => ks.find? (fun k => isStringV (jsIndexT fr k))),
         v.orElse (fun _ => ks.find? (fun k => isNumberV (jsIndexT fr k)))) := by
  induction ks with
  | nil => intro l v; cases l <;> cases v <;> simp [scanColumns, Option.orElse]
  | cons k ks ih =>
    intro l v
    cases hs : isStringV (jsIndexT fr k) with
    | true =>
      have hn : isNumberV (jsIndexT fr k) = false := isNumberV_eq_false_of_string hs
      cases l with
      | none =>
        cases v with
        | none => simp [scanColumns, hs, hn, ih, Option.orElse]
        | some b => simp [scanColumns, hs, hn, ih, Option.orElse]
      | some a =>
        cases v with
        | none => simp [scanColumns, hs, hn, ih, Option.orElse]
        | some b => simp [scanColumns, hs, hn, ih, Option.orElse]
    | false =>
      cases hn : isNumberV (jsIndexT fr k) with
      | true =>
        cases l with
        | none =>
          cases v with
          | none => simp [scanColumns, hs, hn, ih, Option.orElse]
          | some b => simp [scanColumns, hs, hn, ih, Option.orElse]
        | some a =>
          cases v with
          | none => simp [scanColumns, hs, hn, ih, Option.orElse]
          | some b => simp [scanColumns, hs, hn, ih, Option.orElse]
      | false =>
        cases l with
        | none =>
          cases v with
          | none => simp [scanColumns, hs, hn, ih, Option.orElse]
          | some b => simp [scanColumns, hs, hn, ih, Option.orElse]
        | some a =>
          cases v with
          | none => simp [scanColumns, hs, hn, ih, Option.orElse]
          | some b => simp [scanColumns, hs, hn, ih, Option.orElse]

theorem except_ok_bind {ε α β : Type} (a : α) (f : α → Except ε β) :
    (Except.ok a >>= f) = f a := rfl

/-- Reading one column across object rows never throws. -/
theorem mapM_jsGetE_obj (k : List Char) :
    ∀ rls : List (List (List Char × JsValue)),
      (rls.map JsValue.obj).mapM (fun r => jsGetE r k) =
        Except.ok (rls.map (fun r => jsIndexT (JsValue.obj r) k))
  | [] => rfl
  | r :: rest => by
    rw [List.map_cons, List.mapM_cons, mapM_jsGetE_obj k rest]
    rfl

/-- Full characterization of the transformer on a non-empty sequence of
row-mappings, in terms of the spec-side column classification. -/
theorem transform_obj_rows_spec (r0 : List (List Char × JsValue))
    (rs : List (List (List Char × JsValue))) :
    transformDataForChart (.arr ((r0 :: rs).map .obj)) =
      match specLabelColumn r0, specValueColumn r0 with
      | some lCol, some vCol =>
        .ok (some
          { typ := "bar".toList
            labels := (r0 :: rs).map (fun r => jsIndexT (.obj r) lCol)
            datasets := [{ label := if vCol = [] then "Value".toList else vCol,
                           data := (r0 :: rs).map (fun r => jsIndexT (.obj r) vCol),
                           backgroundColor := bgColor, borderColor := bdColor,
                           borderWidth := 1 }] })
      | _, _ => .ok none := by
  have hscan := scanColumns_spec (.obj r0) (r0.map Prod.fst) none none
  simp only [Option.orElse, Option.none_orElse] at hscan
  simp only [List.map_cons, transformDataForChart, jsEntries, except_ok_bind, hscan]
  have hlab : (match (r0.map Prod.fst).find?
        (fun k => isStringV (jsIndexT (.obj r0) k)) with
      | some x => some x
      | none => (r0.map Prod.fst).head?) = specLabelColumn r0 := by
    simp only [specLabelColumn, firstStringKey]
    cases (r0.map Prod.fst).find? (fun k => isStringV (jsIndexT (.obj r0) k)) <;>
      simp [Option.orElse]
  have hval : (match (r0.map Prod.fst).find?
        (fun k => isNumberV (jsIndexT (.obj r0) k)) with
      | some x => some x
      | none => (r0.map Prod.fst).get? 1) = specValueColumn r0 := by
    simp only [specValueColumn, firstNumberKey]
    cases (r0.map Prod.fst).find? (fun k => isNumberV (jsIndexT (.obj r0) k)) <;>
      simp [Option.orElse]
  rw [hlab, hval]
  cases hL : specLabelColumn r0 with
  | none => cases hV : specValueColumn r0 <;> rfl
  | some lCol =>
    cases hV : specValueColumn r0 with
    | none => rfl
    | some vCol =>
      have hm1 := mapM_jsGetE_obj lCol (r0 :: rs)
      have hm2 := mapM_jsGetE_obj vCol (r0 :: rs)
      simp only [List.map_cons] at hm1 hm2
      simp only [hm1, hm2, except_ok_bind]
      rfl

/-- Claim C4: on a non-empty sequence of row-mappings the transformer
classifies columns from the first row only — the first key with a string
value is the label column and the first key with a number value the
value column (no key takes both roles in the scan; the scan stops once
both are found) — falls back to the first and second declared keys for
the unassigned roles, and returns `null` exactly when a role is still
unassigned after the fallback. -/
theorem c4_classification (r0 : List (List Char × JsValue))
    (rs : List (List (List Char × JsValue))) :
    transformDataForChart (.arr ((r0 :: rs).map .obj)) =
      match specLabelColumn r0, specValueColumn r0 with
      | some lCol, some vCol =>
        .ok (some
          { typ := "bar".toList
            labels := (r0 :: rs).map (fun r => jsIndexT (.obj r) lCol)
            datasets := [{ label := if vCol = [] then "Value".toList else vCol,
                           data := (r0 :: rs).map (fun r => jsIndexT (.obj r) vCol),
                           backgroundColor := bgColor, borderColor := bdColor,
                           borderWidth := 1 }] })
      | _, _ => .ok none :=
  transform_obj_rows_spec r0 rs

/-- Claim C5 (amended): the concrete example transforms as claimed, the
empty result set and every non-array input give `null`; the
parenthetical "any input that is not a sequence of row-mappings returns
null" is restricted to non-array inputs (see the counterexample: a
non-empty array of non-mappings can yield a chart or throw). -/
theorem c5_transform_examples :
    transformDataForChart (.arr
        [.obj [("customerName".toList, .str "Alice".toList),
               ("total".toList, .num 500)],
         .obj [("customerName".toList, .str "Bob".toList),
               ("total".toList, .num 300)]]) =
      .ok (some
        { typ := "bar".toList
          labels := [.str "Alice".toList, .str "Bob".toList]
          datasets := [{ label := "total".toList,
                         data := [.num 500, .num 300],
                         backgroundColor := bgColor, borderColor := bdColor,
                         borderWidth := 1 }] }) ∧
    transformDataForChart (.arr []) = .ok none ∧
    ∀ v : JsValue, isArrayV v = false → transformDataForChart v = .ok none := by
  refine ⟨rfl, rfl, ?_⟩
  intro v hv
  cases v <;> first | rfl | simp [isArrayV] at hv

/-- Witness for `c5_transform_examples` at the non-array input `5`. -/
theorem c5_transform_witness :
    isArrayV (JsValue.num 3) = false ∧
    transformDataForChart (JsValue.num 3) = .ok none :=
  ⟨rfl, c5_transform_examples.2.2 (JsValue.num 3) rfl⟩

/-- Claim C5's parenthetical is refuted: the array `[[1, 2]]` is not a
sequence of row-mappings, yet the transformer returns a chart (array
indices act as keys), not `null`; and on `[null]` it throws
(`Object.keys(null)`) instead of returning `null`. -/
theorem c5_counterexample :
    isNullResult (transformDataForChart (.arr [.arr [.num 1, .num 2]])) = false ∧
    transformDataForChart (.arr [.nullV]) = .error () :=
  ⟨rfl, rfl⟩

/-- Claim C10: on a non-empty result set whose rows have the single key
`k` and whose first-row value is a number, the transformer returns a
chart in which `k` is both the label and the value column, so `labels`
and the dataset's `data` are the same sequence. -/
theorem c10_single_key_numeric (k : List Char) (v0 : JsValue) (vs : List JsValue)
    (h : isNumberV v0 = true) :
    transformDataForChart (.arr ((v0 :: vs).map (fun v => .obj [(k, v)]))) =
      .ok (some
        { typ := "bar".toList
          labels := v0 :: vs
          datasets := [{ label := if k = [] then "Value".toList else k,
                         data := v0 :: vs, backgroundColor := bgColor,
                         borderColor := bdColor, borderWidth := 1 }] }) := by
  have hrows : (v0 :: vs).map (fun v => JsValue.obj [(k, v)]) =
      ([(k, v0)] :: vs.map (fun v => [(k, v)])).map JsValue.obj := by
    simp [List.map_map, Function.comp]
  rw [hrows, transform_obj_rows_spec]
  have hidx : ∀ v : JsValue, jsIndexT (.obj [(k, v)]) k = v := by
    intro v; simp [jsIndexT, jsEntries]
  have hstr : firstStringKey [(k, v0)] = none := by
    simp [firstStringKey, hidx, isStringV_eq_false_of_number h]
  have hnum : firstNumberKey [(k, v0)] = some k := by
    simp [firstNumberKey, hidx, h]
  have hcomp : ((fun r => jsIndexT (JsValue.obj r) k) ∘ fun v => [(k, v)]) =
      (id : JsValue → JsValue) := by
    funext v
    simp [Function.comp, hidx]
  simp [specLabelColumn, specValueColumn, hstr, hnum, Option.orElse, hidx,
    List.map_map, hcomp]

/-- Witness for `c10_single_key_numeric` at rows `[{n: 7}, {n: 8}]`. -/
theorem c10_single_key_witness :
    isNumberV (JsValue.num 7) = true ∧
    transformDataForChart
        (.arr ([JsValue.num 7, JsValue.num 8].map
          (fun v => .obj [("n".toList, v)]))) =
      .ok (some
        { typ := "bar".toList
          labels := [.num 7, .num 8]
          datasets := [{ label := if "n".toList = ([] : List Char)
                           then "Value".toList else "n".toList,
                         data := [.num 7, .num 8], backgroundColor := bgColor,
                         borderColor := bdColor, borderWidth := 1 }] }) :=
  ⟨rfl, c10_single_key_numeric "n".toList (.num 7) [.num 8] rfl⟩

/-! ## Claim C6 -/

/-- Claim C6: the chart decision takes the first matching rule — a chart
keyword in the question decides yes without consulting the model;
otherwise the decision is yes exactly when the model's trimmed,
upper-cased response is `YES`; a failed model call decides no (the rest
of the response is still produced, see `c9_error_propagation`). -/
theorem c6_chart_decision (q : List Char) (resp : Except Unit (List Char)) :
    (containsChartKeyword q = true → chartDecision q resp = (true, false)) ∧
    (containsChartKeyword q = false →
      (chartDecision q resp).2 = true ∧
      ((chartDecision q resp).1 = true ↔
        ∃ t, resp = .ok t ∧ jsToUpper (jsTrim t) = "YES".toList)) ∧
    (containsChartKeyword q = false → resp = .error () →
      (chartDecision q resp).1 = false) := by
  refine ⟨?_, ?_, ?_⟩
  · intro h
    simp [chartDecision, h]
  · intro h
    refine ⟨by simp [chartDecision, h], ?_⟩
    simp only [chartDecision, h, Bool.false_eq_true, if_false]
    cases resp with
    | ok t => simp [shouldGenerateChart]
    | error e => simp [shouldGenerateChart]
  · intro h he
    subst he
    simp [chartDecision, h, shouldGenerateChart]

/-- Witness for `c6_chart_decision` at the specification's two example
questions. -/
theorem c6_chart_decision_witness :
    containsChartKeyword "plot total sales by customer".toList = true ∧
    chartDecision "plot total sales by customer".toList (.error ()) =
      (true, false) ∧
    containsChartKeyword "show me total sales by customer".toList = false ∧
    (chartDecision "show me total sales by customer".toList
      (.ok " yes ".toList)).2 = true ∧
    (chartDecision "show me total sales by customer".toList (.error ())).1 =
      false :=
  ⟨by decide, (c6_chart_decision _ _).1 (by decide), by decide,
   ((c6_chart_decision _ _).2.1 (by decide)).1,
   (c6_chart_decision _ _).2.2 (by decide) rfl⟩

/-! ## Claim C7 -/

/-- Claim C7 is refuted by the array `[9007199254740993n]`: a `bigint`
that is a direct array element is passed to the recursive call, whose
first test (`typeof obj !== 'object'`) returns it unchanged — only
`bigint`s sitting in object properties are converted. -/
theorem c7_counterexample :
    convertBigIntToString (.arr [.bigintV 9007199254740993]) =
      .arr [.bigintV 9007199254740993] ∧
    hasBigint (convertBigIntToString (.arr [.bigintV 9007199254740993])) =
      true :=
  ⟨rfl, rfl⟩

theorem isBigintV_convert_of_not_bigint {v : JsValue} (h : isBigintV v = false) :
    isBigintV (convertBigIntToString v) = false := by
  cases v <;> simp_all [convertBigIntToString, isBigintV]

mutual

/-- After normalization no object property holds a `bigint`, at any
depth. -/
theorem hasObjBigint_convert :
    ∀ v : JsValue, hasObjBigint (convertBigIntToString v) = false
  | .str _ => rfl
  | .num _ => rfl
  | .bigintV _ => rfl
  | .boolV _ => rfl
  | .nullV => rfl
  | .undefinedV => rfl
  | .arr l => hasObjBigint_convertList l
  | .obj l => hasObjBigint_convertEntries l

theorem hasObjBigint_convertList :
    ∀ l : List JsValue, hasObjBigintList (convertBigIntList l) = false
  | [] => rfl
  | v :: r => by
    simp only [convertBigIntList, hasObjBigintList, hasObjBigint_convert v,
      hasObjBigint_convertList r, Bool.or_self]

theorem hasObjBigint_convertEntries :
    ∀ l : List (List Char × JsValue),
      hasObjBigintEntries (convertBigIntEntries l) = false
  | [] => rfl
  | (k, v) :: r => by
    cases v with
    | bigintV n =>
      simp only [convertBigIntEntries, hasObjBigintEntries, isBigintV,
        hasObjBigint, hasObjBigint_convertEntries r, Bool.or_self]
    | str s =>
      simp only [convertBigIntEntries, hasObjBigintEntries,
        isBigintV_convert_of_not_bigint (v := .str s) rfl,
        hasObjBigint_convert (.str s), hasObjBigint_convertEntries r,
        Bool.or_self]
    | num n =>
      simp only [convertBigIntEntries, hasObjBigintEntries,
        isBigintV_convert_of_not_bigint (v := .num n) rfl,
        hasObjBigint_convert (.num n), hasObjBigint_convertEntries r,
        Bool.or_self]
    | boolV b =>
      simp only [convertBigIntEntries, hasObjBigintEntries,
        isBigintV_convert_of_not_bigint (v := .boolV b) rfl,
        hasObjBigint_convert (.boolV b), hasObjBigint_convertEntries r,
        Bool.or_self]
    | nullV =>
      simp only [convertBigIntEntries, hasObjBigintEntries,
        isBigintV_convert_of_not_bigint (v := .nullV) rfl,
        hasObjBigint_convert .nullV, hasObjBigint_convertEntries r,
        Bool.or_self]
    | undefinedV =>
      simp only [convertBigIntEntries, hasObjBigintEntries,
        isBigintV_convert_of_not_bigint (v := .undefinedV) rfl,
        hasObjBigint_convert .undefinedV, hasObjBigint_convertEntries r,
        Bool.or_self]
    | arr l2 =>
      simp only [convertBigIntEntries, hasObjBigintEntries,
        isBigintV_convert_of_not_bigint (v := .arr l2) rfl,
        hasObjBigint_convert (.arr l2), hasObjBigint_convertEntries r,
        Bool.or_self]
    | obj l2 =>
      simp only [convertBigIntEntries, hasObjBigintEntries,
        isBigintV_convert_of_not_bigint (v := .obj l2) rfl,
        hasObjBigint_convert (.obj l2), hasObjBigint_convertEntries r,
        Bool.or_self]

end

theorem convertBigIntList_eq_map :
    ∀ l : List JsValue, convertBigIntList l = l.map convertBigIntToString
  | [] => rfl
  | v :: r => by
    simp only [convertBigIntList, List.map_cons, convertBigIntList_eq_map r]

/-- `value.toString()` applied to a `bigint` scalar (identity elsewhere). -/
def bigintToDecString : JsValue → JsValue
  | .bigintV n => .str (intToDec n)
  | v => v

mutual

/-- Values of every other type are untouched: a value containing no
`bigint` anywhere is returned exactly as it is. -/
theorem convert_id_of_no_bigint :
    ∀ v : JsValue, hasBigint v = false → convertBigIntToString v = v
  | .str _, _ => rfl
  | .num _, _ => rfl
  | .boolV _, _ => rfl
  | .nullV, _ => rfl
  | .undefinedV, _ => rfl
  | .bigintV _, h => by simp [hasBigint] at h
  | .arr l, h => by
    simp only [hasBigint] at h
    simp only [convertBigIntToString, convertList_id_of_no_bigint l h]
  | .obj l, h => by
    simp only [hasBigint] at h
    simp only [convertBigIntToString, convertEntries_id_of_no_bigint l h]

theorem convertList_id_of_no_bigint :
    ∀ l : List JsValue, hasBigintList l = false → convertBigIntList l = l
  | [], _ => rfl
  | v :: r, h => by
    simp only [hasBigintList, Bool.or_eq_false_iff] at h
    simp only [convertBigIntList, convert_id_of_no_bigint v h.1,
      convertList_id_of_no_bigint r h.2]

theorem convertEntries_id_of_no_bigint :
    ∀ l : List (List Char × JsValue), hasBigintEntries l = false →
      convertBigIntEntries l = l
  | [], _ => rfl
  | (k, v) :: r, h => by
    simp only [hasBigintEntries, Bool.or_eq_false_iff] at h
    cases v with
    | bigintV n => exact absurd h.1 (by simp [hasBigint])
    | str s =>
      simp only [convertBigIntEntries, convert_id_of_no_bigint (.str s) h.1,
        convertEntries_id_of_no_bigint r h.2]
    | num n =>
      simp only [convertBigIntEntries, convert_id_of_no_bigint (.num n) h.1,
        convertEntries_id_of_no_bigint r h.2]
    | boolV b =>
      simp only [convertBigIntEntries, convert_id_of_no_bigint (.boolV b) h.1,
        convertEntries_id_of_no_bigint r h.2]
    | nullV =>
      simp only [convertBigIntEntries, convert_id_of_no_bigint .nullV h.1,
        convertEntries_id_of_no_bigint r h.2]
    | undefinedV =>
      simp only [convertBigIntEntries, convert_id_of_no_bigint .undefinedV h.1,
        convertEntries_id_of_no_bigint r h.2]
    | arr l2 =>
      simp only [convertBigIntEntries, convert_id_of_no_bigint (.arr l2) h.1,
        convertEntries_id_of_no_bigint r h.2]
    | obj l2 =>
      simp only [convertBigIntEntries, convert_id_of_no_bigint (.obj l2) h.1,
        convertEntries_id_of_no_bigint r h.2]

end

/-- Object normalization is entry-wise and key-preserving: a `bigint`
value becomes its decimal string, every other value is normalized
recursively (so by `convert_id_of_no_bigint` bigint-free values are
untouched in place, independently of their sibling entries). -/
theorem convertBigIntEntries_eq_map :
    ∀ l : List (List Char × JsValue),
      convertBigIntEntries l =
        l.map (fun p => (p.1,
          if isBigintV p.2 then bigintToDecString p.2
          else convertBigIntToString p.2))
  | [] => rfl
  | (k, v) :: r => by
    cases v with
    | bigintV n =>
      simp [convertBigIntEntries, isBigintV, bigintToDecString,
        convertBigIntEntries_eq_map r]
    | str s =>
      simp [convertBigIntEntries, isBigintV, convertBigIntEntries_eq_map r]
    | num n =>
      simp [convertBigIntEntries, isBigintV, convertBigIntEntries_eq_map r]
    | boolV b =>
      simp [convertBigIntEntries, isBigintV, convertBigIntEntries_eq_map r]
    | nullV =>
      simp [convertBigIntEntries, isBigintV, convertBigIntEntries_eq_map r]
    | undefinedV =>
      simp [convertBigIntEntries, isBigintV, convertBigIntEntries_eq_map r]
    | arr l2 =>
      simp [convertBigIntEntries, isBigintV, convertBigIntEntries_eq_map r]
    | obj l2 =>
      simp [convertBigIntEntries, isBigintV, convertBigIntEntries_eq_map r]

/-- Claim C7 (amended): normalization converts every `bigint` that
occurs as the value of a mapping key, at any depth (no object property
of the output holds a `bigint`), and in particular
`{id: 9007199254740993n}` becomes `{id: "9007199254740993"}`; values of
every other type are left untouched — any bigint-free value is a fixed
point, and object conversion is entry-wise and key-preserving, so a
non-`bigint` entry value is normalized independently of its siblings —
but a `bigint` that is the top-level value, or a direct array element,
passes through unchanged (`typeof bigint !== 'object'`), and arrays are
mapped element-wise.  Together the conjuncts determine the normalizer on
every value. -/
theorem c7_normalization_amended :
    convertBigIntToString (.obj [("id".toList, .bigintV 9007199254740993)]) =
      .obj [("id".toList, .str "9007199254740993".toList)] ∧
    (∀ v : JsValue, hasBigint v = false → convertBigIntToString v = v) ∧
    (∀ l : List (List Char × JsValue),
      convertBigIntToString (.obj l) =
        .obj (l.map (fun p => (p.1,
          if isBigintV p.2 then bigintToDecString p.2
          else convertBigIntToString p.2)))) ∧
    (∀ v : JsValue, hasObjBigint (convertBigIntToString v) = false) ∧
    (∀ n : Int, convertBigIntToString (.bigintV n) = .bigintV n) ∧
    (∀ l : List JsValue,
      convertBigIntToString (.arr l) = .arr (l.map convertBigIntToString)) :=
  ⟨rfl, convert_id_of_no_bigint,
   fun l => by simp [convertBigIntToString, convertBigIntEntries_eq_map l],
   hasObjBigint_convert, fun _ => rfl,
   fun l => by simp [convertBigIntToString, convertBigIntList_eq_map l]⟩

/-- Witness for `c7_normalization_amended`: a bigint-free row with a
number and a string value is returned untouched. -/
theorem c7_normalization_witness :
    hasBigint (JsValue.obj
      [("a".toList, .num 5), ("b".toList, .str "x".toList)]) = false ∧
    convertBigIntToString (JsValue.obj
        [("a".toList, .num 5), ("b".toList, .str "x".toList)]) =
      JsValue.obj [("a".toList, .num 5), ("b".toList, .str "x".toList)] :=
  ⟨rfl, c7_normalization_amended.2.1 _ rfl⟩

/-! ## Claim C8 -/

/-- Claim C8: a missing or empty `query` field yields
`400 {error: "Query is required"}` — for every environment, so the
response neither invokes nor depends on any downstream stage outcome. -/
theorem c8_missing_query (body : Option (List Char)) (env : PipelineEnv)
    (h : body = none ∨ body = some []) :
    apiQueryHandler body env = .badRequest "Query is required".toList := by
  rcases h with rfl | rfl <;> rfl

/-- Witness for `c8_missing_query` with two arbitrary environments. -/
theorem c8_missing_query_witness :
    apiQueryHandler none
        ⟨.ok (), .ok [], .ok .nullV, .ok [], .ok []⟩ =
      .badRequest "Query is required".toList ∧
    apiQueryHandler (some [])
        ⟨.error "boom".toList, .error (), .error "x".toList,
         .error "y".toList, .error ()⟩ =
      .badRequest "Query is required".toList :=
  ⟨c8_missing_query none _ (Or.inl rfl),
   c8_missing_query (some []) _ (Or.inr rfl)⟩

/-! ## Claim C9 -/

/-- Claim C9: every fatal stage failure (schema fetch, SQL generation,
execution, summarization) maps to a 500 response carrying a non-empty
error string (the failure's message or the generic fallback) and no
payload fields (`ApiResponse.serverError` carries only the message);
when all fatal stages succeed the full payload is delivered, and a chart
decision failure (with no chart keyword) or a chart transform failure
only forces `chart := null`. -/
theorem c9_error_propagation (q : List Char) (env : PipelineEnv) (hq : q ≠ []) :
    (∀ m, env.schemaRes = .error m →
      apiQueryHandler (some q) env = .serverError (errOrFallback m)) ∧
    (env.schemaRes = .ok () → env.genSqlLm = .error () →
      apiQueryHandler (some q) env = .serverError (errOrFallback genSqlFailMsg)) ∧
    (∀ raw m, env.schemaRes = .ok () → env.genSqlLm = .ok raw →
      env.execRes = .error m →
      apiQueryHandler (some q) env = .serverError (errOrFallback m)) ∧
    (∀ raw res m, env.schemaRes = .ok () → env.genSqlLm = .ok raw →
      env.execRes = .ok res → env.summaryLm = .error m →
      apiQueryHandler (some q) env = .serverError (errOrFallback m)) ∧
    (∀ m : List Char, errOrFallback m ≠ []) ∧
    (∀ raw res s, env.schemaRes = .ok () → env.genSqlLm = .ok raw →
      env.execRes = .ok res → env.summaryLm = .ok s →
      ∃ p : ResponsePayload, apiQueryHandler (some q) env = .ok p ∧
        p.query = modifySqlQueryForCharting (cleanSqlResponse raw) ∧
        p.result = convertBigIntToString res ∧
        p.summary = jsTrim s ∧
        (containsChartKeyword q = false → env.chartLm = .error () →
          p.chart = none) ∧
        (transformDataForChart (convertBigIntToString res) = .error () →
          p.chart = none)) := by
  refine ⟨?_, ?_, ?_, ?_, ?_, ?_⟩
  · intro m hm
    simp [apiQueryHandler, hq, hm]
  · intro hs hg
    simp [apiQueryHandler, hq, hs, hg]
  · intro raw m hs hg he
    simp [apiQueryHandler, hq, hs, hg, he]
  · intro raw res m hs hg he hsum
    simp [apiQueryHandler, hq, hs, hg, he, hsum]
  · intro m
    by_cases hm : m = []
    · simp [errOrFallback, hm]
    · simp [errOrFallback, hm]
  · intro raw res s hs hg he hsum
    simp only [apiQueryHandler, Option.getD_some, hq, if_neg, hs, hg, he, hsum]
    refine ⟨_, rfl, rfl, rfl, rfl, ?_, ?_⟩
    · intro hkw hcl
      simp [chartDecision, hkw, hcl, shouldGenerateChart]
    · intro ht
      simp [ht]

/-- Witness for `c9_error_propagation`: a schema failure with message
`boom` yields `500 boom`, and with all fatal stages succeeding but the
chart model call failing, the payload is delivered with `chart := null`. -/
theorem c9_error_propagation_witness :
    apiQueryHandler (some "q1".toList)
        ⟨.error "boom".toList, .ok "sql".toList, .ok (.arr []),
         .ok "sum".toList, .ok "NO".toList⟩ =
      .serverError "boom".toList ∧
    ∃ p : ResponsePayload,
      apiQueryHandler (some "q1".toList)
          ⟨.ok (), .ok "select 1".toList, .ok (.arr []),
           .ok " done ".toList, .error ()⟩ = .ok p ∧
      p.summary = "done".toList ∧ p.chart = none := by
  constructor
  · exact (c9_error_propagation "q1".toList _ (by decide)).1 "boom".toList rfl
  · obtain ⟨p, hp, hq2, hr, hsum, hch, _⟩ :=
      (c9_error_propagation "q1".toList
        ⟨.ok (), .ok "select 1".toList, .ok (.arr []),
         .ok " done ".toList, .error ()⟩ (by decide)).2.2.2.2.2
        "select 1".toList (.arr []) " done ".toList rfl rfl rfl rfl
    exact ⟨p, hp, by rw [hsum]; decide, hch (by decide) rfl⟩

end SQLAgent
